import Mathlib

/-!
Verification development for the IEC 61850-9-2 Sampled Values
publisher/subscriber pair (mendax0110/IEC61850).

The definitions below are a shallow embedding of the C++ sources:

* byte sequences are `List Nat` with every element below 256;
* machine integers are `Nat` (or `Int` for signed values) with explicit
  reductions modulo 2^w where the C++ semantics truncates;
* `std::optional` results become `Option`;
* real-valued physics (breaker currents, protection thresholds) is modelled
  over `ℚ` or `ℝ` exact arithmetic, matching the real-number reading of the
  double computations that the specification reasons about;
* stateful objects become explicit state records with pure transition
  functions, and wall-clock reads become explicit `now` parameters.
-/

namespace IEC61850

/-! ## Big-endian byte serialization

`BufferWriter::writeUint16/32/64` (include/sv/core/buffer.h) store the low
`w` bytes of a value most-significant first.  `beBytes w v` is that byte
string; `beVal` is the evaluation map used by the reader side. -/

/-- Big-endian byte string of the low `w` bytes of `v`. -/
def beBytes : Nat → Nat → List Nat
  | 0, _ => []
  | w + 1, v => beBytes w (v / 256) ++ [v % 256]

/-- Big-endian evaluation of a byte string, accumulator style: this is the
loop `acc = (acc << 8) | data[i]` of the readers (for bytes below 256 the
bitwise or coincides with addition). -/
def beVal (bs : List Nat) : Nat :=
  bs.foldl (fun acc b => acc * 256 + b) 0

theorem beBytes_length (w v : Nat) : (beBytes w v).length = w := by
  induction w generalizing v with
  | zero => rfl
  | succ w ih => simp [beBytes, ih]

theorem beBytes_lt (w v : Nat) : ∀ b ∈ beBytes w v, b < 256 := by
  induction w generalizing v with
  | zero => intro b hb; simp [beBytes] at hb
  | succ w ih =>
    intro b hb
    simp only [beBytes, List.mem_append, List.mem_singleton] at hb
    rcases hb with hb | hb
    · exact ih _ _ hb
    · subst hb; exact Nat.mod_lt _ (by norm_num)

theorem beVal_append (xs ys : List Nat) :
    beVal (xs ++ ys) = ys.foldl (fun acc b => acc * 256 + b) (beVal xs) := by
  simp [beVal, List.foldl_append]

theorem beVal_beBytes (w v : Nat) : beVal (beBytes w v) = v % 256 ^ w := by
  induction w generalizing v with
  | zero => simp [beBytes, beVal, Nat.mod_one]
  | succ w ih =>
    have h := beVal_append (beBytes w (v / 256)) [v % 256]
    simp only [beBytes, h, List.foldl_cons, List.foldl_nil, ih]
    have hm : v % 256 ^ (w + 1) = v % 256 + 256 * (v / 256 % 256 ^ w) := by
      rw [pow_succ, mul_comm (256 ^ w) 256, Nat.mod_mul]
    omega

/-! ## PTP TAI timestamp (include/sv/core/ptp.h)

`PtpTimestamp` carries `(seconds : u64, nanoseconds : u32)`.  `toTai` packs
the low 32 bits of the seconds big-endian, followed by the fraction
`(ns * 2^32) / 10^9` computed in 64-bit arithmetic and cast to `uint32_t`.
`fromTai` folds the two 4-byte groups back (the C++ loop
`acc = (acc << 8) | data[i]` equals `acc * 256 + data[i]` because each
`data[i]` is a `uint8_t`), recovers `ns = (fraction * 10^9) >> 32` and fails
when the recovered nanoseconds reach 10^9. -/

namespace PtpTimestamp

/-- Embedding of `PtpTimestamp::toTai`. -/
def toTai (seconds ns : Nat) : List Nat :=
  beBytes 4 seconds ++ beBytes 4 (ns * 2 ^ 32 / 1000000000 % 2 ^ 32)

/-- Embedding of `PtpTimestamp::fromTai`; returns `(seconds, nanoseconds)`.
Here `beVal (data.take 4)` is the seconds loop, `beVal ((data.drop 4).take 4)`
the fraction loop, and `fraction * 10^9 / 2^32 % 2^32` the `uint32_t` cast of
`(fraction * fractionToNano) >> 32`. -/
def fromTai (data : List Nat) : Option (Nat × Nat) :=
  if 1000000000 ≤ beVal ((data.drop 4).take 4) * 1000000000 / 2 ^ 32 % 2 ^ 32 then
    none
  else
    some (beVal (data.take 4),
      beVal ((data.drop 4).take 4) * 1000000000 / 2 ^ 32 % 2 ^ 32)

theorem toTai_take (s f : Nat) :
    (toTai s f).take 4 = beBytes 4 s :=
  List.take_left' (beBytes_length 4 s)

theorem toTai_drop (s f : Nat) :
    (toTai s f).drop 4 = beBytes 4 (f * 2 ^ 32 / 1000000000 % 2 ^ 32) :=
  List.drop_left' (beBytes_length 4 s)

end PtpTimestamp

/-- C3: for every `(s, ns)` pair with `ns < 10^9`, `fromTai (toTai s ns)`
succeeds, the recovered seconds are the 32-bit truncation of `s`, the
recovered nanoseconds are within 1 of `ns`, and both 64-bit intermediate
products stay below `2^64`. -/
theorem ptp_roundtrip (s ns : Nat) (hns : ns < 1000000000) :
    ∃ ns2 : Nat,
      PtpTimestamp.fromTai (PtpTimestamp.toTai s ns) = some (s % 2 ^ 32, ns2) ∧
      ns2 ≤ ns ∧ ns ≤ ns2 + 1 ∧
      ns * 2 ^ 32 < 2 ^ 64 ∧
      ns * 2 ^ 32 / 1000000000 * 1000000000 < 2 ^ 64 := by
  have h32 : (2 : Nat) ^ 32 = 4294967296 := by norm_num
  have hF : ns * 2 ^ 32 / 1000000000 < 2 ^ 32 := by rw [h32] at *; omega
  have hFm : ns * 2 ^ 32 / 1000000000 % 2 ^ 32 = ns * 2 ^ 32 / 1000000000 :=
    Nat.mod_eq_of_lt hF
  have hN : ns * 2 ^ 32 / 1000000000 * 1000000000 / 2 ^ 32 < 2 ^ 32 := by
    rw [h32] at *; omega
  refine ⟨ns * 2 ^ 32 / 1000000000 * 1000000000 / 2 ^ 32, ?_, ?_, ?_, ?_, ?_⟩
  · unfold PtpTimestamp.fromTai
    rw [PtpTimestamp.toTai_take, PtpTimestamp.toTai_drop,
      List.take_of_length_le (le_of_eq (beBytes_length 4 _)),
      beVal_beBytes, beVal_beBytes,
      show (256 : Nat) ^ 4 = 2 ^ 32 by norm_num,
      Nat.mod_mod_of_dvd _ dvd_rfl, hFm, Nat.mod_eq_of_lt hN,
      if_neg (by rw [h32] at *; omega)]
  · rw [h32] at *; omega
  · rw [h32] at *; omega
  · rw [h32]; norm_num; omega
  · rw [h32]; norm_num; omega

/-! ## BufferReader (include/sv/core/buffer.h, types.h)

The reader holds a borrowed byte span and a cursor.  Primitive reads return
0 without advancing when fewer bytes than requested remain; `skip` saturates
at the end; `readFixedString` clamps to the remaining bytes and truncates the
result at the first NUL byte.  `readUint16/32/64` share one shape (memcpy of
k bytes followed by a big-endian byte swap), embedded once as `readBE k`. -/

structure BufferReader where
  data : List Nat
  pos : Nat
deriving DecidableEq

namespace BufferReader

/-- Mirror of the `length_` field. -/
def length (r : BufferReader) : Nat := r.data.length

/-- Mirror of `remaining()`: `length_ > pos_ ? length_ - pos_ : 0`, which is
exactly truncated subtraction. -/
def remaining (r : BufferReader) : Nat := r.length - r.pos

/-- Shared shape of `readUint16/32/64`: k bytes big-endian, soft-fail 0. -/
def readBE (k : Nat) (r : BufferReader) : Nat × BufferReader :=
  if r.length < r.pos + k then (0, r)
  else (beVal ((r.data.drop r.pos).take k), { r with pos := r.pos + k })

def readUint16 (r : BufferReader) : Nat × BufferReader := readBE 2 r

def readUint32 (r : BufferReader) : Nat × BufferReader := readBE 4 r

def readUint64 (r : BufferReader) : Nat × BufferReader := readBE 8 r

/-- Mirror of `readUint8`: returns `data_[pos_]` or soft-fails with 0. -/
def readUint8 (r : BufferReader) : Nat × BufferReader :=
  if r.length ≤ r.pos then (0, r)
  else ((r.data.drop r.pos).headD 0, { r with pos := r.pos + 1 })

/-- Mirror of `readInt32`: `static_cast<int32_t>` of the 32-bit read, i.e.
the two-complement reading of the unsigned value. -/
def readInt32 (r : BufferReader) : Int × BufferReader :=
  let p := readBE 4 r
  (if p.1 < 2 ^ 31 then (p.1 : Int) else (p.1 : Int) - 2 ^ 32, p.2)

/-- Mirror of `readFixedString`: clamp to the remaining bytes, advance, and
truncate the result at the first NUL byte (`str.find` + `resize`). -/
def readFixedString (n : Nat) (r : BufferReader) : List Nat × BufferReader :=
  (((r.data.drop r.pos).take (min n (r.length - r.pos))).takeWhile (fun b => b ≠ 0),
    { r with pos := r.pos + min n (r.length - r.pos) })

/-- Mirror of `skip`: `pos_ = min(pos_ + bytes, length_)`. -/
def skip (n : Nat) (r : BufferReader) : BufferReader :=
  { r with pos := min (r.pos + n) r.length }

/-- Cursor invariant used to walk a frame: the bytes at and after the cursor
are exactly `s`. -/
def Reads (r : BufferReader) (s : List Nat) : Prop :=
  r.pos ≤ r.data.length ∧ r.data.drop r.pos = s

theorem reads_length {r : BufferReader} {s : List Nat} (h : Reads r s) :
    r.data.length = r.pos + s.length := by
  obtain ⟨h1, h2⟩ := h
  have := congrArg List.length h2
  simp only [List.length_drop] at this
  omega

theorem reads_remaining {r : BufferReader} {s : List Nat} (h : Reads r s) :
    r.remaining = s.length := by
  have := reads_length h
  simp only [remaining, length]
  omega

theorem reads_advance {r : BufferReader} {mid rest : List Nat} {k : Nat}
    (h : Reads r (mid ++ rest)) (hk : mid.length = k) :
    Reads ⟨r.data, r.pos + k⟩ rest := by
  have hl := reads_length h
  refine ⟨by simp at hl ⊢; omega, ?_⟩
  have h2 := h.2
  calc r.data.drop (r.pos + k) = (r.data.drop r.pos).drop k := by
        rw [List.drop_drop, Nat.add_comm]
    _ = (mid ++ rest).drop k := by rw [h2]
    _ = rest := by rw [← hk, List.drop_left]

theorem readBE_reads {r : BufferReader} {mid rest : List Nat} {k : Nat}
    (h : Reads r (mid ++ rest)) (hk : mid.length = k) :
    readBE k r = (beVal mid, ⟨r.data, r.pos + k⟩) ∧
      Reads ⟨r.data, r.pos + k⟩ rest := by
  have hl := reads_length h
  simp only [List.length_append] at hl
  refine ⟨?_, reads_advance h hk⟩
  unfold readBE
  rw [if_neg (by simp only [length]; omega)]
  rw [h.2, ← hk, List.take_left]

theorem readUint8_reads {r : BufferReader} {b : Nat} {rest : List Nat}
    (h : Reads r (b :: rest)) :
    readUint8 r = (b, ⟨r.data, r.pos + 1⟩) ∧ Reads ⟨r.data, r.pos + 1⟩ rest := by
  have hl := reads_length h
  simp only [List.length_cons] at hl
  refine ⟨?_, @reads_advance _ [b] _ 1 h rfl⟩
  unfold readUint8
  rw [if_neg (by simp only [length]; omega)]
  rw [h.2]
  rfl

theorem readInt32_reads {r : BufferReader} {mid rest : List Nat}
    (h : Reads r (mid ++ rest)) (hk : mid.length = 4) :
    readInt32 r
      = (if beVal mid < 2 ^ 31 then (beVal mid : Int) else (beVal mid : Int) - 2 ^ 32,
         ⟨r.data, r.pos + 4⟩) ∧
      Reads ⟨r.data, r.pos + 4⟩ rest := by
  obtain ⟨h1, h2⟩ := readBE_reads h hk
  exact ⟨by unfold readInt32; rw [h1], h2⟩

theorem readFixedString_reads {r : BufferReader} {mid rest : List Nat} {n : Nat}
    (h : Reads r (mid ++ rest)) (hk : mid.length = n) (hn : n ≤ mid.length + rest.length) :
    readFixedString n r
      = (mid.takeWhile (fun b => b ≠ 0), ⟨r.data, r.pos + n⟩) ∧
      Reads ⟨r.data, r.pos + n⟩ rest := by
  have hl := reads_length h
  simp only [List.length_append] at hl
  refine ⟨?_, reads_advance h hk⟩
  unfold readFixedString
  have hmin : min n (r.length - r.pos) = n := by
    simp only [length]; omega
  rw [hmin, h.2, ← hk, List.take_left]

theorem skip_reads {r : BufferReader} {mid rest : List Nat} {k : Nat}
    (h : Reads r (mid ++ rest)) (hk : mid.length = k) :
    skip k r = ⟨r.data, r.pos + k⟩ ∧ Reads ⟨r.data, r.pos + k⟩ rest := by
  have hl := reads_length h
  simp only [List.length_append] at hl
  refine ⟨?_, reads_advance h hk⟩
  unfold skip
  have : min (r.pos + k) r.length = r.pos + k := by
    simp only [length]; omega
  rw [this]

end BufferReader

/-! ## SV data model (include/sv/core/types.h)

`Quality` is a packed 32-bit field whose `Quality(raw)` constructor and
`toRaw()` are mutually inverse bit reinterpretations, so an `AnalogValue`
carries its quality directly as the raw 32-bit word.  The value variant of
`std::variant<int32_t, uint32_t, float>` is a three-way sum; the float case
carries the IEEE-754 bit pattern, which is exactly what `writeFloat` /
`readFloat` move (`bit_cast` to `uint32_t` and back). -/

inductive SmpSynch
  | None
  | Local
  | Global
deriving DecidableEq

/-- Cast `static_cast<uint8_t>(synch)` used by the encoder. -/
def SmpSynch.toByte : SmpSynch → Nat
  | .None => 0
  | .Local => 1
  | .Global => 2

/-- Switch on the received `smpSynch` byte; out-of-range values are logged
and coerced to `None` (the parser default branch). -/
def SmpSynch.ofByte (b : Nat) : SmpSynch :=
  if b = 0 then .None else if b = 1 then .Local else if b = 2 then .Global else .None

inductive SVValue
  | i32 (v : Int)
  | u32 (v : Nat)
  | f32 (bits : Nat)
deriving DecidableEq

structure AnalogValue where
  value : SVValue
  qualityRaw : Nat
deriving DecidableEq

structure ASDU where
  svID : List Nat
  smpCnt : Nat
  confRev : Nat
  smpSynch : SmpSynch
  dataSet : List AnalogValue
  gmIdentity : Option (List Nat)
  timestampNs : Nat
deriving DecidableEq

/-- Mirror of `ASDU::isValid`. -/
def ASDU.isValid (a : ASDU) : Bool :=
  !a.svID.isEmpty && 2 ≤ a.svID.length && a.dataSet.length = 8

/-- Fields of `SampledValueControlBlock` consumed by the encoder.  The
`multicastAddress` is kept as the 6 parsed MAC bytes. -/
structure SVCB where
  multicastAddress : List Nat
  vlanId : Nat
  userPriority : Nat
  appId : Nat
  simulate : Bool
  confRev : Nat
  smpSynch : SmpSynch
  gmIdentity : Option (List Nat)
deriving DecidableEq

/-! ## SV frame encoder (`EthernetNetworkSender::sendASDU`)

The encoder reserves the 2-byte length slot, writes the remainder of the
frame, then patches the slot with `writer.size() - lengthPos - 2`, i.e. the
number of bytes following the slot; the embedding therefore serializes the
bytes after the slot as `body` and writes `beBytes 2 body.length` in place
(`beBytes 2` performs the `uint16_t` truncation of the cast). -/

/-- Mirror of `BufferWriter::writeFixedString`: copy up to `n` bytes and
zero-pad the remainder. -/
def writeFixedString (s : List Nat) (n : Nat) : List Nat :=
  s.take n ++ List.replicate (n - s.length) 0

/-- Value serialization in the dataset loop: `writeInt32` casts the signed
value to its unsigned 32-bit pattern, `writeUint32` writes it directly, and
`writeFloat` writes the stored IEEE-754 bit pattern. -/
def encodeValue : SVValue → List Nat
  | .i32 v => beBytes 4 (v % 2 ^ 32).toNat
  | .u32 v => beBytes 4 v
  | .f32 bits => beBytes 4 bits

def encodeAnalogValue (a : AnalogValue) : List Nat :=
  encodeValue a.value ++ beBytes 4 a.qualityRaw

def encodeDataSet : List AnalogValue → List Nat
  | [] => []
  | a :: rest => encodeAnalogValue a ++ encodeDataSet rest

/-- Mirror of the VLAN tag block: TPID 0x8100 followed by the TCI
`(userPriority << 13) | (vlanId & 0x0FFF)` truncated to 16 bits. -/
def vlanTagBytes (svcb : SVCB) : List Nat :=
  if 0 < svcb.vlanId then
    beBytes 2 0x8100 ++ beBytes 2 (svcb.userPriority * 2 ^ 13 + svcb.vlanId % 4096)
  else []

/-- Bytes following the length slot:  reserved1 (simulate bit 15), reserved2,
numASDUs = 1, the 64-byte svID, smpCnt, the confRev and smpSynch taken from
the SVCB, the optional gmIdentity from the SVCB, the dataset and the
timestamp written as the 64-bit nanosecond count of
`asdu.timestamp.time_since_epoch()`. -/
def encodeBody (svcb : SVCB) (asdu : ASDU) : List Nat :=
  beBytes 2 (if svcb.simulate then 0x8000 else 0)
    ++ beBytes 2 0
    ++ [1]
    ++ writeFixedString asdu.svID 64
    ++ beBytes 2 asdu.smpCnt
    ++ beBytes 4 svcb.confRev
    ++ [svcb.smpSynch.toByte]
    ++ (match svcb.gmIdentity with | some g => g | none => [])
    ++ encodeDataSet asdu.dataSet
    ++ beBytes 8 asdu.timestampNs

/-- Mirror of `EthernetNetworkSender::sendASDU` (the emitted frame). -/
def encodeSVFrame (svcb : SVCB) (srcMac : List Nat) (asdu : ASDU) : List Nat :=
  svcb.multicastAddress ++ srcMac ++ vlanTagBytes svcb
    ++ beBytes 2 0x88BA ++ beBytes 2 svcb.appId
    ++ beBytes 2 (encodeBody svcb asdu).length ++ encodeBody svcb asdu

/-! ## SV frame parser (`EthernetNetworkReceiver::parseASDU`)

The parser walks the frame with a `BufferReader` over the received buffer.
It reads the dataset as exactly eight `(int32 value, uint32 quality)` pairs
regardless of the configured data type, never reads a gmIdentity field, and
reads the trailing timestamp as a big-endian `uint64` nanosecond count,
substituting the wall clock (the explicit `nowNs` parameter here) when fewer
than 8 bytes remain. -/

/-- Mirror of the svID trailing-space trim loop
(`while !empty && back == ' ' pop_back`). -/
def trimTrailingSpaces (s : List Nat) : List Nat :=
  (s.reverse.dropWhile (fun b => b = 32)).reverse

/-- Mirror of the dataset loop
`for (i = 0; i < 8 && reader.remaining() >= 8; ++i)`, reading an `int32`
value and a raw quality word per element. -/
def readDataSet : BufferReader → Nat → List AnalogValue × BufferReader
  | r, 0 => ([], r)
  | r, n + 1 =>
    if 8 ≤ r.remaining then
      let v := (r.readInt32).1
      let r1 := (r.readInt32).2
      let q := (r1.readUint32).1
      let r2 := (r1.readUint32).2
      (⟨.i32 v, q⟩ :: (readDataSet r2 n).1, (readDataSet r2 n).2)
    else ([], r)

/-- Continuation of `parseASDU` after the EtherType has been read and
checked: header fields, svID, counters, dataset and timestamp. -/
def parseSVPayload (nowNs : Nat) (r : BufferReader) : Option ASDU :=
  let r4 := (r.readUint16).2
  let r5 := (r4.readUint16).2
  let r6 := BufferReader.skip 4 r5
  let numASDUs := (r6.readUint8).1
  let r7 := (r6.readUint8).2
  if numASDUs = 0 ∨ 8 < numASDUs then none
  else
    let svID := trimTrailingSpaces (r7.readFixedString 64).1
    let r8 := (r7.readFixedString 64).2
    let smpCnt := (r8.readUint16).1
    let r9 := (r8.readUint16).2
    let confRev := (r9.readUint32).1
    let r10 := (r9.readUint32).2
    let synchValue := (r10.readUint8).1
    let r11 := (r10.readUint8).2
    let dataSet := (readDataSet r11 8).1
    let r12 := (readDataSet r11 8).2
    if dataSet.length ≠ 8 then none
    else
      let timestampNs := if 8 ≤ r12.remaining then (r12.readUint64).1 else nowNs
      let asdu : ASDU :=
        ⟨svID, smpCnt, confRev, SmpSynch.ofByte synchValue, dataSet, none, timestampNs⟩
      if asdu.isValid then some asdu else none

/-- Mirror of `EthernetNetworkReceiver::parseASDU`: minimum-size check, MAC
skip, optional 802.1Q tag skip, EtherType check, then the payload. -/
def parseASDU (nowNs : Nat) (buffer : List Nat) (len : Nat) : Option ASDU :=
  if len < 14 + 8 then none
  else
    let r1 := BufferReader.skip 12 ⟨buffer, 0⟩
    let et := (r1.readUint16).1
    let r2 := (r1.readUint16).2
    if et = 0x8100 then
      let r3 := BufferReader.skip 2 r2
      let et2 := (r3.readUint16).1
      let r4 := (r3.readUint16).2
      if et2 ≠ 0x88BA then none else parseSVPayload nowNs r4
    else if et ≠ 0x88BA then none else parseSVPayload nowNs r2

/-! ## Round-trip support lemmas -/

theorem writeFixedString_length (s : List Nat) (n : Nat) (h : s.length ≤ n) :
    (writeFixedString s n).length = n := by
  simp [writeFixedString]
  omega

theorem takeWhile_all {p : Nat → Bool} {s : List Nat} (h : ∀ b ∈ s, p b) (t : List Nat) :
    (s ++ t).takeWhile p = s ++ t.takeWhile p := by
  induction s with
  | nil => simp
  | cons a s ih =>
    have ha : p a := h a (by simp)
    simp [List.takeWhile_cons, ha, ih (fun b hb => h b (by simp [hb]))]

theorem takeWhile_writeFixedString {s : List Nat} {n : Nat}
    (hle : s.length ≤ n) (hnz : ∀ b ∈ s, b ≠ 0) :
    (writeFixedString s n).takeWhile (fun b => b ≠ 0) = s := by
  unfold writeFixedString
  rw [List.take_of_length_le hle,
    takeWhile_all (fun b hb => by simpa using hnz b hb)]
  rcases Nat.eq_zero_or_pos (n - s.length) with h | h
  · simp [h]
  · obtain ⟨k, hk⟩ := Nat.exists_eq_succ_of_ne_zero (Nat.pos_iff_ne_zero.mp h)
    simp [hk, List.replicate_succ]

theorem trimTrailingSpaces_eq {s : List Nat} (h : s.getLast? ≠ some 32) :
    trimTrailingSpaces s = s := by
  unfold trimTrailingSpaces
  rcases hs : s.reverse with _ | ⟨a, t⟩
  · simpa using congrArg List.reverse hs
  · have hhead : s.reverse.head? = some a := by rw [hs]; rfl
    rw [List.head?_reverse] at hhead
    have ha : ¬(a = 32) := fun hEq => h (hEq ▸ hhead)
    rw [List.dropWhile_cons_of_neg (by simpa using ha), ← hs, List.reverse_reverse]

theorem smpSynch_ofByte_toByte (x : SmpSynch) : SmpSynch.ofByte x.toByte = x := by
  cases x <;> rfl

theorem encodeValue_length (v : SVValue) : (encodeValue v).length = 4 := by
  cases v <;> simp [encodeValue, beBytes_length]

theorem encodeAnalogValue_length (a : AnalogValue) :
    (encodeAnalogValue a).length = 8 := by
  simp [encodeAnalogValue, encodeValue_length, beBytes_length]

/-- Well-formedness of one dataset element for the exact-inversion direction:
an in-range `int32` value and a 32-bit quality word. -/
def GoodAV (a : AnalogValue) : Prop :=
  (∃ v : Int, a.value = .i32 v ∧ -(2 ^ 31) ≤ v ∧ v < 2 ^ 31) ∧ a.qualityRaw < 2 ^ 32

theorem int32_decode_encode {v : Int} (h1 : -(2 ^ 31) ≤ v) (h2 : v < 2 ^ 31) :
    (if beVal (beBytes 4 (v % 2 ^ 32).toNat) < 2 ^ 31 then
        (beVal (beBytes 4 (v % 2 ^ 32).toNat) : Int)
      else (beVal (beBytes 4 (v % 2 ^ 32).toNat) : Int) - 2 ^ 32) = v := by
  rw [beVal_beBytes, show (256 : Nat) ^ 4 = 2 ^ 32 by norm_num,
    Nat.mod_eq_of_lt (by omega)]
  omega

theorem quality_decode_encode {q : Nat} (hq : q < 2 ^ 32) :
    beVal (beBytes 4 q) = q := by
  rw [beVal_beBytes, show (256 : Nat) ^ 4 = 2 ^ 32 by norm_num,
    Nat.mod_eq_of_lt hq]

theorem beVal_beBytes_of_lt {w v : Nat} (h : v < 256 ^ w) :
    beVal (beBytes w v) = v := by
  rw [beVal_beBytes, Nat.mod_eq_of_lt h]

theorem readDataSet_reads (vals : List AnalogValue) :
    ∀ {r : BufferReader} {rest : List Nat},
      r.Reads (encodeDataSet vals ++ rest) →
      (∀ a ∈ vals, GoodAV a) →
      readDataSet r vals.length
        = (vals, ⟨r.data, r.pos + 8 * vals.length⟩) ∧
        BufferReader.Reads ⟨r.data, r.pos + 8 * vals.length⟩ rest := by
  induction vals with
  | nil =>
    intro r rest h _
    refine ⟨by simp [readDataSet], ?_⟩
    simp only [encodeDataSet, List.nil_append] at h
    simpa using h
  | cons a tl ih =>
    intro r rest h hgood
    obtain ⟨av, aq⟩ := a
    obtain ⟨⟨v, hav, hv1, hv2⟩, hq⟩ := hgood ⟨av, aq⟩ (by simp)
    simp only at hav hq
    subst hav
    simp only [encodeDataSet, encodeAnalogValue, encodeValue, List.append_assoc] at h
    have s1 := BufferReader.readInt32_reads h (beBytes_length 4 _)
    have s2 := BufferReader.readBE_reads s1.2 (beBytes_length 4 _)
    have s3 := ih s2.2 (fun b hb => hgood b (by simp [hb]))
    have hrem : 8 ≤ r.remaining := by
      rw [BufferReader.reads_remaining h]
      simp only [List.length_append, beBytes_length]
      omega
    have hpos : r.pos + 4 + 4 + 8 * tl.length = r.pos + 8 * (tl.length + 1) := by
      ring
    dsimp only at s3
    simp only [List.length_cons, readDataSet, hrem, if_true, s1.1,
      BufferReader.readUint32, s2.1, s3.1]
    rw [int32_decode_encode hv1 hv2, quality_decode_encode hq]
    simp only [hpos] at s3 ⊢
    exact ⟨by simp, s3.2⟩

/-- Exact inversion of the payload part: from the reader positioned at the
APPID field of an encoded frame, `parseSVPayload` recovers the ASDU. -/
theorem parseSVPayload_of_reads (nowNs : Nat) (svcb : SVCB) (asdu : ASDU)
    {r : BufferReader}
    (hgm : svcb.gmIdentity = none)
    (hconf : asdu.confRev = svcb.confRev) (hconf32 : svcb.confRev < 2 ^ 32)
    (hsynch : asdu.smpSynch = svcb.smpSynch)
    (hsv2 : 2 ≤ asdu.svID.length) (hsv64 : asdu.svID.length ≤ 64)
    (hsvnz : ∀ b ∈ asdu.svID, b ≠ 0)
    (hsvsp : asdu.svID.getLast? ≠ some 32)
    (hsmp : asdu.smpCnt < 2 ^ 16)
    (hds : asdu.dataSet.length = 8)
    (hvals : ∀ a ∈ asdu.dataSet, GoodAV a)
    (hgm2 : asdu.gmIdentity = none)
    (hts : asdu.timestampNs < 2 ^ 64)
    (h : r.Reads (beBytes 2 svcb.appId
        ++ (beBytes 2 (encodeBody svcb asdu).length ++ encodeBody svcb asdu))) :
    parseSVPayload nowNs r = some asdu := by
  obtain ⟨sv, cnt, cr, ss, ds, gm, ts⟩ := asdu
  simp only at hconf hsynch hsv2 hsv64 hsvnz hsvsp hsmp hds hvals hgm2 hts
  subst hconf hsynch hgm2
  simp only [encodeBody, hgm, List.append_assoc, List.singleton_append] at h
  have s1 := BufferReader.readBE_reads h (beBytes_length 2 _)
  have s2 := BufferReader.readBE_reads s1.2 (beBytes_length 2 _)
  have h2 := s2.2
  rw [← List.append_assoc] at h2
  have s3 := BufferReader.skip_reads (k := 4) h2
    (by simp only [List.length_append, beBytes_length])
  have s4 := BufferReader.readUint8_reads s3.2
  have s5 := BufferReader.readFixedString_reads s4.2
    (writeFixedString_length sv 64 hsv64)
    (by rw [writeFixedString_length sv 64 hsv64]; omega)
  have s6 := BufferReader.readBE_reads s5.2 (beBytes_length 2 _)
  have s7 := BufferReader.readBE_reads s6.2 (beBytes_length 4 _)
  have s8 := BufferReader.readUint8_reads s7.2
  have s9 := readDataSet_reads ds s8.2 hvals
  have hrem12 := BufferReader.reads_remaining s9.2
  rw [beBytes_length] at hrem12
  have h10 : BufferReader.Reads
      ⟨r.data, r.pos + 2 + 2 + 4 + 1 + 64 + 2 + 4 + 1 + 8 * ds.length⟩
      (beBytes 8 ts ++ []) := by
    rw [List.append_nil]; exact s9.2
  have s10 := BufferReader.readBE_reads h10 (beBytes_length 8 _)
  rw [hds] at s9 s10 hrem12
  simp only [parseSVPayload, BufferReader.readUint16, BufferReader.readUint32,
    BufferReader.readUint64, s1.1, s2.1, s3.1, s4.1, s5.1, s6.1, s7.1, s8.1,
    s9.1, hds, s10.1, hrem12]
  rw [takeWhile_writeFixedString hsv64 hsvnz, trimTrailingSpaces_eq hsvsp,
    beVal_beBytes_of_lt (show cnt < 256 ^ 2 by norm_num at hsmp ⊢; omega),
    beVal_beBytes_of_lt (show svcb.confRev < 256 ^ 4 by norm_num at hconf32 ⊢; omega),
    beVal_beBytes_of_lt (show ts < 256 ^ 8 by norm_num at hts ⊢; omega),
    smpSynch_ofByte_toByte]
  have hvalid : (ASDU.mk sv cnt svcb.confRev svcb.smpSynch ds none ts).isValid = true := by
    simp only [ASDU.isValid]
    have : ¬sv.isEmpty := by
      cases sv with
      | nil => simp at hsv2
      | cons a t => simp
    simp [this, hsv2, hds]
  simp [hvalid]

theorem encodeDataSet_length (ds : List AnalogValue) :
    (encodeDataSet ds).length = 8 * ds.length := by
  induction ds with
  | nil => rfl
  | cons a tl ih =>
    simp [encodeDataSet, encodeAnalogValue_length, ih]
    ring

theorem encodeBody_length (svcb : SVCB) (asdu : ASDU)
    (hgm : svcb.gmIdentity = none) (hsv64 : asdu.svID.length ≤ 64)
    (hds : asdu.dataSet.length = 8) :
    (encodeBody svcb asdu).length = 148 := by
  simp [encodeBody, hgm, writeFixedString_length _ _ hsv64, beBytes_length,
    encodeDataSet_length, hds]

/-- C1 (amended): feeding an encoded frame back to the parser recovers the
ASDU, provided the dataset carries int32-tagged values, the control block
has no gmIdentity, the svID is NUL-free, not space-terminated and 2..64
bytes long, and the confRev and smpSynch of the ASDU agree with the control
block (the encoder writes those two fields from the SVCB). -/
theorem sv_codec_roundtrip (svcb : SVCB) (srcMac : List Nat) (asdu : ASDU)
    (nowNs : Nat)
    (hdst : svcb.multicastAddress.length = 6) (hsrc : srcMac.length = 6)
    (hgm : svcb.gmIdentity = none)
    (hconf : asdu.confRev = svcb.confRev) (hconf32 : svcb.confRev < 2 ^ 32)
    (hsynch : asdu.smpSynch = svcb.smpSynch)
    (hsv2 : 2 ≤ asdu.svID.length) (hsv64 : asdu.svID.length ≤ 64)
    (hsvnz : ∀ b ∈ asdu.svID, b ≠ 0)
    (hsvsp : asdu.svID.getLast? ≠ some 32)
    (hsmp : asdu.smpCnt < 2 ^ 16)
    (hds : asdu.dataSet.length = 8)
    (hvals : ∀ a ∈ asdu.dataSet, GoodAV a)
    (hgm2 : asdu.gmIdentity = none)
    (hts : asdu.timestampNs < 2 ^ 64) :
    parseASDU nowNs (encodeSVFrame svcb srcMac asdu)
      (encodeSVFrame svcb srcMac asdu).length = some asdu := by
  have hbody := encodeBody_length svcb asdu hgm hsv64 hds
  have hfe : encodeSVFrame svcb srcMac asdu
      = (svcb.multicastAddress ++ srcMac) ++ (vlanTagBytes svcb
        ++ (beBytes 2 0x88BA ++ (beBytes 2 svcb.appId
        ++ (beBytes 2 (encodeBody svcb asdu).length ++ encodeBody svcb asdu)))) := by
    simp [encodeSVFrame]
  have h0 : BufferReader.Reads ⟨encodeSVFrame svcb srcMac asdu, 0⟩
      (encodeSVFrame svcb srcMac asdu) := ⟨Nat.zero_le _, List.drop_zero _⟩
  rw [hfe] at h0 ⊢
  have hlen : ¬(((svcb.multicastAddress ++ srcMac) ++ (vlanTagBytes svcb
        ++ (beBytes 2 0x88BA ++ (beBytes 2 svcb.appId
        ++ (beBytes 2 (encodeBody svcb asdu).length
            ++ encodeBody svcb asdu))))).length < 14 + 8) := by
    simp [hdst, hsrc, beBytes_length, hbody]
    omega
  rcases Nat.eq_zero_or_pos svcb.vlanId with hv | hv
  · have hvlan : vlanTagBytes svcb = [] := by simp [vlanTagBytes, hv]
    rw [hvlan, List.nil_append] at h0 hlen ⊢
    have s1 := BufferReader.skip_reads (k := 12) h0 (by simp [hdst, hsrc])
    have s2 := BufferReader.readBE_reads s1.2 (beBytes_length 2 _)
    simp only [parseASDU, if_neg hlen, BufferReader.readUint16, s1.1, s2.1,
      beVal_beBytes_of_lt (show 0x88BA < 256 ^ 2 by norm_num)]
    norm_num
    have h2 := s2.2
    simp only [List.append_assoc] at h2
    norm_num at h2
    exact parseSVPayload_of_reads nowNs svcb asdu hgm hconf hconf32 hsynch
      hsv2 hsv64 hsvnz hsvsp hsmp hds hvals hgm2 hts h2
  · have hvlan : vlanTagBytes svcb
        = beBytes 2 0x8100
          ++ beBytes 2 (svcb.userPriority * 2 ^ 13 + svcb.vlanId % 4096) := by
      simp [vlanTagBytes, hv]
    rw [hvlan, List.append_assoc (beBytes 2 33024)] at h0 hlen ⊢
    have s1 := BufferReader.skip_reads (k := 12) h0 (by simp [hdst, hsrc])
    have s2 := BufferReader.readBE_reads s1.2 (beBytes_length 2 _)
    have s3 := BufferReader.skip_reads (k := 2) s2.2 (beBytes_length 2 _)
    have s4 := BufferReader.readBE_reads s3.2 (beBytes_length 2 _)
    simp only [parseASDU, if_neg hlen, BufferReader.readUint16, s1.1, s2.1,
      s3.1, s4.1,
      beVal_beBytes_of_lt (show 0x8100 < 256 ^ 2 by norm_num),
      beVal_beBytes_of_lt (show 0x88BA < 256 ^ 2 by norm_num)]
    norm_num
    have h4 := s4.2
    simp only [List.append_assoc] at h4
    norm_num at h4
    exact parseSVPayload_of_reads nowNs svcb asdu hgm hconf hconf32 hsynch
      hsv2 hsv64 hsvnz hsvsp hsmp hds hvals hgm2 hts h4

/-! ## Concrete codec fixtures -/

/-- Control block fixture: appID 0x4000, no VLAN, confRev 1, Local synch,
no gmIdentity. -/
def cexSvcb : SVCB :=
  ⟨[1, 12, 205, 4, 0, 1], 0, 4, 0x4000, false, 1, .Local, none⟩

/-- Control block fixture with a configured 8-byte gmIdentity. -/
def cexSvcbGm : SVCB :=
  ⟨[1, 12, 205, 4, 0, 1], 0, 4, 0x4000, false, 1, .Global,
   some [1, 2, 3, 4, 5, 6, 7, 8]⟩

/-- Control block fixture with confRev 2. -/
def cexSvcbConf : SVCB :=
  ⟨[1, 12, 205, 4, 0, 1], 0, 4, 0x4000, false, 2, .Local, none⟩

def cexSrcMac : List Nat := [2, 4, 6, 8, 10, 12]

/-- Eight int32-tagged zero samples with good quality. -/
def cexZeros : List AnalogValue :=
  [⟨.i32 0, 0⟩, ⟨.i32 0, 0⟩, ⟨.i32 0, 0⟩, ⟨.i32 0, 0⟩,
   ⟨.i32 0, 0⟩, ⟨.i32 0, 0⟩, ⟨.i32 0, 0⟩, ⟨.i32 0, 0⟩]

/-- Valid ASDU whose first sample carries the uint32 tag. -/
def cexAsduU32 : ASDU :=
  ⟨[83, 86], 0, 1, .Local,
   ⟨.u32 5, 0⟩ :: cexZeros.tail, none, 0⟩

/-- Valid int32-only ASDU (paired with `cexSvcbGm` and `cexSvcbConf`). -/
def cexAsduI32 : ASDU := ⟨[83, 86], 0, 1, .Local, cexZeros, none, 0⟩

/-- Valid ASDU with confRev 7, published through a confRev-2 SVCB. -/
def cexAsduConf : ASDU := ⟨[83, 86], 0, 7, .Local, cexZeros, none, 0⟩

/-- Valid ASDU whose svID ends in a space character. -/
def cexAsduSpace : ASDU := ⟨[83, 32], 0, 1, .Local, cexZeros, none, 0⟩

set_option maxRecDepth 40000 in
/-- C1 counterexample: `parse (encode asdu)` differs from `asdu` (i) when a
dataset value carries the uint32 tag (the parser always produces int32
tags), (ii) when the control block has a gmIdentity (the encoder writes the
8 extra bytes but the parser never reads them), (iii) when the confRev of
the ASDU differs from the confRev of the SVCB (the encoder writes the
latter), and (iv) when the svID ends in a space (the parser trims it and
then rejects the 1-byte svID). -/
theorem sv_codec_roundtrip_cex :
    parseASDU 0 (encodeSVFrame cexSvcb cexSrcMac cexAsduU32)
        (encodeSVFrame cexSvcb cexSrcMac cexAsduU32).length ≠ some cexAsduU32 ∧
    parseASDU 0 (encodeSVFrame cexSvcbGm cexSrcMac cexAsduI32)
        (encodeSVFrame cexSvcbGm cexSrcMac cexAsduI32).length ≠ some cexAsduI32 ∧
    parseASDU 0 (encodeSVFrame cexSvcbConf cexSrcMac cexAsduConf)
        (encodeSVFrame cexSvcbConf cexSrcMac cexAsduConf).length ≠ some cexAsduConf ∧
    parseASDU 0 (encodeSVFrame cexSvcb cexSrcMac cexAsduSpace)
        (encodeSVFrame cexSvcb cexSrcMac cexAsduSpace).length ≠ some cexAsduSpace := by
  refine ⟨by decide, by decide, by decide, by decide⟩

/-- C1 witness fixture. -/
def wAsdu : ASDU := ⟨[83, 86, 48, 49], 9, 1, .Local, cexZeros, none, 123456789⟩

set_option maxRecDepth 40000 in
/-- Witness for the amended C1 round-trip at a concrete frame. -/
theorem sv_codec_roundtrip_witness :
    parseASDU 0 (encodeSVFrame cexSvcb cexSrcMac wAsdu)
      (encodeSVFrame cexSvcb cexSrcMac wAsdu).length = some wAsdu :=
  sv_codec_roundtrip cexSvcb cexSrcMac wAsdu 0 (by decide) (by decide) rfl rfl
    (by decide) rfl (by decide) (by decide) (by decide) (by decide) (by decide)
    (by decide)
    (by
      intro a ha
      fin_cases ha <;>
        exact ⟨⟨0, rfl, by norm_num, by norm_num⟩, by norm_num⟩)
    rfl (by decide)

end IEC61850


namespace IEC61850

/-! ## Timestamp serialization (C2) -/

/-- ASDU fixture whose timestamp is 1.5 seconds after the epoch
(seconds = 1, nanoseconds = 500000000). -/
def cexAsduTs : ASDU := ⟨[83, 86], 0, 1, .Local, cexZeros, none, 1500000000⟩

/-- Helper: the last 8 bytes of `l ++ t` with `t.length = 8` are `t`. -/
theorem drop_sub_append (l t : List Nat) (h : t.length = 8) :
    (l ++ t).drop ((l ++ t).length - 8) = t := by
  have : (l ++ t).length - 8 = l.length := by
    simp [h]
  rw [this, List.drop_left]

set_option maxRecDepth 40000 in
/-- C2 counterexample: at the fixture timestamp (s = 1, ns = 500000000) the
final 8 bytes of the encoded frame differ from the 8-byte PTP TAI
serialization of that timestamp, because the encoder writes the raw 64-bit
nanosecond count of `asdu.timestamp` instead of calling `toTai`. -/
theorem sv_timestamp_tai_cex :
    (encodeSVFrame cexSvcb cexSrcMac cexAsduTs).drop
        ((encodeSVFrame cexSvcb cexSrcMac cexAsduTs).length - 8)
      ≠ PtpTimestamp.toTai 1 500000000 := by
  decide

/-- C2 (amended): the final 8 bytes of every encoded frame are the
big-endian 64-bit nanosecond count of the ASDU timestamp, and evaluating
those bytes big-endian (which is what the parser timestamp read does)
recovers the count. -/
theorem sv_timestamp_encoding (svcb : SVCB) (srcMac : List Nat) (asdu : ASDU)
    (hts : asdu.timestampNs < 2 ^ 64) :
    (encodeSVFrame svcb srcMac asdu).drop
        ((encodeSVFrame svcb srcMac asdu).length - 8)
      = beBytes 8 asdu.timestampNs ∧
    beVal (beBytes 8 asdu.timestampNs) = asdu.timestampNs := by
  constructor
  · have hsplit : encodeSVFrame svcb srcMac asdu
        = (svcb.multicastAddress ++ srcMac ++ vlanTagBytes svcb
            ++ beBytes 2 0x88BA ++ beBytes 2 svcb.appId
            ++ beBytes 2 (encodeBody svcb asdu).length
            ++ beBytes 2 (if svcb.simulate then 0x8000 else 0)
            ++ beBytes 2 0 ++ [1] ++ writeFixedString asdu.svID 64
            ++ beBytes 2 asdu.smpCnt ++ beBytes 4 svcb.confRev
            ++ [svcb.smpSynch.toByte]
            ++ (match svcb.gmIdentity with | some g => g | none => [])
            ++ encodeDataSet asdu.dataSet)
          ++ beBytes 8 asdu.timestampNs := by
      simp [encodeSVFrame, encodeBody]
    rw [hsplit, drop_sub_append _ _ (beBytes_length 8 _)]
  · exact beVal_beBytes_of_lt (by norm_num at hts ⊢; omega)

/-- Witness for the amended C2 statement at a concrete frame. -/
theorem sv_timestamp_encoding_witness :
    (encodeSVFrame cexSvcb cexSrcMac cexAsduTs).drop
        ((encodeSVFrame cexSvcb cexSrcMac cexAsduTs).length - 8)
      = beBytes 8 cexAsduTs.timestampNs ∧
    beVal (beBytes 8 cexAsduTs.timestampNs) = cexAsduTs.timestampNs :=
  sv_timestamp_encoding cexSvcb cexSrcMac cexAsduTs (by norm_num [cexAsduTs])

end IEC61850

namespace IEC61850

/-! ## Breaker state machine (src/client.cpp, BreakerModel)

The model that the claims exercise: the six-element state enum, the atomic
`locked` and `currentA` cells, and the timed-transition bookkeeping.  The
simulation thread calls `updateState` every 10 ms; here `updateState` takes
the sampled steady-clock instant as a parameter.  Currents and durations are
`ℚ` (exact arithmetic stands in for the double computations, all of which
are comparisons, subtraction and division here).  The state-change callback
has no effect on breaker state and is not modelled. -/

inductive BreakerState
  | OPEN
  | CLOSED
  | OPENING
  | CLOSING
  | LOCKED_OPEN
  | LOCKED_CLOSED
deriving DecidableEq

/-- Fields of `BreakerDefinition` read by the embedded operations. -/
structure BreakerDefinition where
  openTimeSec : ℚ
  closeTimeSec : ℚ
  maxCurrentA : ℚ
  arcDurationSec : ℚ
deriving DecidableEq

structure BreakerModel where
  state : BreakerState
  locked : Bool
  currentA : ℚ
  targetState : BreakerState
  transitionDuration : ℚ
  transitionStartTime : ℚ
deriving DecidableEq

namespace BreakerModel

/-- Mirror of `transitionToState` (the callback only observes the change). -/
def transitionToState (b : BreakerModel) (newState : BreakerState) : BreakerModel :=
  { b with state := newState }

/-- Mirror of `trip()`: clear the lock, force OPEN, clear the current. -/
def trip (b : BreakerModel) : BreakerModel :=
  { transitionToState { b with locked := false } .OPEN with currentA := 0 }

/-- Mirror of `open()` (`open` is a Lean keyword, hence the prime). -/
def open' (defn : BreakerDefinition) (now : ℚ) (b : BreakerModel) :
    Bool × BreakerModel :=
  if b.locked then (false, b)
  else if b.state = .OPEN ∨ b.state = .OPENING then (false, b)
  else (true,
    { transitionToState b .OPENING with
        targetState := .OPEN,
        transitionDuration := defn.openTimeSec,
        transitionStartTime := now })

/-- Mirror of `close()`. -/
def close' (defn : BreakerDefinition) (now : ℚ) (b : BreakerModel) :
    Bool × BreakerModel :=
  if b.locked then (false, b)
  else if b.state = .CLOSED ∨ b.state = .CLOSING then (false, b)
  else (true,
    { transitionToState b .CLOSING with
        targetState := .CLOSED,
        transitionDuration := defn.closeTimeSec,
        transitionStartTime := now })

/-- Mirror of `lock()`: store the flag, then move OPEN to LOCKED_OPEN and
CLOSED to LOCKED_CLOSED; every other state is left as it is. -/
def lock (b : BreakerModel) : BreakerModel :=
  if b.state = .OPEN then transitionToState { b with locked := true } .LOCKED_OPEN
  else if b.state = .CLOSED then transitionToState { b with locked := true } .LOCKED_CLOSED
  else { b with locked := true }

/-- Mirror of `unlock()`. -/
def unlock (b : BreakerModel) : BreakerModel :=
  if b.state = .LOCKED_OPEN then transitionToState { b with locked := false } .OPEN
  else if b.state = .LOCKED_CLOSED then transitionToState { b with locked := false } .CLOSED
  else { b with locked := false }

/-- Mirror of `setCurrent`: store, then auto-trip on overload. -/
def setCurrent (defn : BreakerDefinition) (current : ℚ) (b : BreakerModel) :
    BreakerModel :=
  if |current| > defn.maxCurrentA then trip { b with currentA := current }
  else { b with currentA := current }

/-- Mirror of one `updateState()` tick at steady-clock instant `now`: finish
a due timed transition (clearing the current when the target is OPEN), then
apply the arc-decay step, which is keyed on the state read at entry. -/
def updateState (defn : BreakerDefinition) (now : ℚ) (b : BreakerModel) :
    BreakerModel :=
  let b1 :=
    if b.state = .OPENING ∨ b.state = .CLOSING then
      if now - b.transitionStartTime ≥ b.transitionDuration then
        if b.targetState = .OPEN then
          { transitionToState b b.targetState with currentA := 0 }
        else transitionToState b b.targetState
      else b
    else b
  if b.state = .OPENING ∧ 0 < b1.currentA then
    { b1 with currentA := max 0 (b1.currentA - b1.currentA / defn.arcDurationSec * (1 / 100)) }
  else b1

end BreakerModel

/-- C4: `trip()` leaves every breaker OPEN with zero current and the lock
cleared, and `setCurrent c` with `|c|` above the rating reaches the same
outcome immediately (well within the one-tick bound of the claim), from any
starting state, closed ones included. -/
theorem breaker_trip_overload (defn : BreakerDefinition) (b : BreakerModel)
    (c : ℚ) (hc : |c| > defn.maxCurrentA) :
    (b.trip).state = .OPEN ∧ (b.trip).currentA = 0 ∧ (b.trip).locked = false ∧
    (BreakerModel.setCurrent defn c b).state = .OPEN ∧
    (BreakerModel.setCurrent defn c b).currentA = 0 ∧
    (BreakerModel.setCurrent defn c b).locked = false := by
  simp [BreakerModel.trip, BreakerModel.transitionToState,
    BreakerModel.setCurrent, hc]

/-- Witness for C4 at a 1000 A breaker driven to 1500 A. -/
theorem breaker_trip_overload_witness :
    (BreakerModel.trip ⟨.CLOSED, false, 800, .CLOSED, 0, 0⟩).state = .OPEN ∧
    (BreakerModel.trip ⟨.CLOSED, false, 800, .CLOSED, 0, 0⟩).currentA = 0 ∧
    (BreakerModel.trip ⟨.CLOSED, false, 800, .CLOSED, 0, 0⟩).locked = false ∧
    (BreakerModel.setCurrent ⟨1/20, 1/10, 1000, 1/50⟩ 1500
        ⟨.CLOSED, false, 800, .CLOSED, 0, 0⟩).state = .OPEN ∧
    (BreakerModel.setCurrent ⟨1/20, 1/10, 1000, 1/50⟩ 1500
        ⟨.CLOSED, false, 800, .CLOSED, 0, 0⟩).currentA = 0 ∧
    (BreakerModel.setCurrent ⟨1/20, 1/10, 1000, 1/50⟩ 1500
        ⟨.CLOSED, false, 800, .CLOSED, 0, 0⟩).locked = false :=
  breaker_trip_overload ⟨1/20, 1/10, 1000, 1/50⟩
    ⟨.CLOSED, false, 800, .CLOSED, 0, 0⟩ 1500 (by norm_num)

/-- C5: `open()` fails and changes nothing exactly when the breaker is
locked or already OPEN or OPENING; otherwise it succeeds and enters OPENING
with target OPEN and the configured opening time; `close()` mirrors this
with CLOSED, CLOSING and the closing time. -/
theorem breaker_open_close_spec (defn : BreakerDefinition) (now : ℚ)
    (b : BreakerModel) :
    BreakerModel.open' defn now b
      = (if b.locked = true ∨ b.state = .OPEN ∨ b.state = .OPENING
         then (false, b)
         else (true, { b with
                        state := .OPENING,
                        targetState := .OPEN,
                        transitionDuration := defn.openTimeSec,
                        transitionStartTime := now })) ∧
    BreakerModel.close' defn now b
      = (if b.locked = true ∨ b.state = .CLOSED ∨ b.state = .CLOSING
         then (false, b)
         else (true, { b with
                        state := .CLOSING,
                        targetState := .CLOSED,
                        transitionDuration := defn.closeTimeSec,
                        transitionStartTime := now })) := by
  refine ⟨?_, ?_⟩
  · unfold BreakerModel.open' BreakerModel.transitionToState
    rcases hb : b.locked <;> rcases hs : b.state <;> simp [hb, hs]
  · unfold BreakerModel.close' BreakerModel.transitionToState
    rcases hb : b.locked <;> rcases hs : b.state <;> simp [hb, hs]

/-- C10: `lock()` only raises the flag when the state is OPENING or CLOSING
(LOCKED_OPEN and LOCKED_CLOSED are produced by `lock()` exactly from OPEN
and CLOSED); a due transition then still completes to the plain target
state, so the breaker reaches plain OPEN or CLOSED with `locked = true`. -/
theorem breaker_lock_transition (defn : BreakerDefinition)
    (b b2 : BreakerModel) (now : ℚ)
    (hb : b.state = .OPENING ∨ b.state = .CLOSING)
    (helapsed : now - b.transitionStartTime ≥ b.transitionDuration) :
    BreakerModel.lock b = { b with locked := true } ∧
    (BreakerModel.updateState defn now (BreakerModel.lock b)).state = b.targetState ∧
    (BreakerModel.updateState defn now (BreakerModel.lock b)).locked = true ∧
    ((BreakerModel.lock b2).state = .LOCKED_OPEN
      ↔ b2.state = .OPEN ∨ b2.state = .LOCKED_OPEN) ∧
    ((BreakerModel.lock b2).state = .LOCKED_CLOSED
      ↔ b2.state = .CLOSED ∨ b2.state = .LOCKED_CLOSED) := by
  have hlock : BreakerModel.lock b = { b with locked := true } := by
    unfold BreakerModel.lock BreakerModel.transitionToState
    rcases hb with hb | hb <;> simp [hb]
  refine ⟨hlock, ?_, ?_, ?_, ?_⟩
  · rw [hlock]
    unfold BreakerModel.updateState BreakerModel.transitionToState
    rcases hb with hb | hb <;>
      rcases ht : b.targetState <;>
        simp [hb, ht, helapsed] <;> try (split <;> simp)
  · rw [hlock]
    unfold BreakerModel.updateState BreakerModel.transitionToState
    rcases hb with hb | hb <;>
      rcases ht : b.targetState <;>
        simp [hb, ht, helapsed] <;> try (split <;> simp)
  · unfold BreakerModel.lock BreakerModel.transitionToState
    rcases hs : b2.state <;> simp [hs]
  · unfold BreakerModel.lock BreakerModel.transitionToState
    rcases hs : b2.state <;> simp [hs]

/-- Witness for C10: lock during a due CLOSING transition. -/
theorem breaker_lock_transition_witness :
    BreakerModel.lock ⟨.CLOSING, false, 5, .CLOSED, 1, 0⟩
      = (⟨.CLOSING, true, 5, .CLOSED, 1, 0⟩ : BreakerModel) ∧
    (BreakerModel.updateState ⟨1/20, 1/10, 1000, 1/50⟩ 2
        (BreakerModel.lock ⟨.CLOSING, false, 5, .CLOSED, 1, 0⟩)).state = .CLOSED ∧
    (BreakerModel.updateState ⟨1/20, 1/10, 1000, 1/50⟩ 2
        (BreakerModel.lock ⟨.CLOSING, false, 5, .CLOSED, 1, 0⟩)).locked = true ∧
    ((BreakerModel.lock ⟨.OPEN, false, 0, .OPEN, 0, 0⟩).state = .LOCKED_OPEN
      ↔ (⟨.OPEN, false, 0, .OPEN, 0, 0⟩ : BreakerModel).state = .OPEN
        ∨ (⟨.OPEN, false, 0, .OPEN, 0, 0⟩ : BreakerModel).state = .LOCKED_OPEN) ∧
    ((BreakerModel.lock ⟨.OPEN, false, 0, .OPEN, 0, 0⟩).state = .LOCKED_CLOSED
      ↔ (⟨.OPEN, false, 0, .OPEN, 0, 0⟩ : BreakerModel).state = .CLOSED
        ∨ (⟨.OPEN, false, 0, .OPEN, 0, 0⟩ : BreakerModel).state = .LOCKED_CLOSED) := by
  have h := breaker_lock_transition ⟨1/20, 1/10, 1000, 1/50⟩
    ⟨.CLOSING, false, 5, .CLOSED, 1, 0⟩ ⟨.OPEN, false, 0, .OPEN, 0, 0⟩ 2
    (Or.inr rfl) (by norm_num)
  exact ⟨h.1, h.2.1, h.2.2.1, h.2.2.2.1, h.2.2.2.2⟩

end IEC61850

namespace IEC61850

/-! ## Differential protection (src/client.cpp, DifferentialProtection)

`update` works on complex phasor currents; magnitudes, thresholds and the
slope characteristic are real-valued.  The exact real arithmetic below is
the mathematical reading of the double computations (comparisons, absolute
values, one multiplication by 0.5 = 1/2 and one by slopePercent/100).  The
`enabled_` atomic (default true) is passed explicitly; the trip callback
does not affect the returned result and is not modelled. -/

structure DifferentialProtectionSettings where
  slopePercent : ℝ
  minOperatingCurrentA : ℝ
  minRestraintCurrentA : ℝ
  instantaneousThresholdA : ℝ

structure DifferentialProtectionResult where
  trip : Bool
  operatingCurrentA : ℝ
  restraintCurrentA : ℝ
  instantaneous : Bool

/-- Mirror of `DifferentialProtection::checkCharacteristic`. -/
noncomputable def checkCharacteristic (s : DifferentialProtectionSettings)
    (operating restraint : ℝ) : Bool :=
  if operating < s.minOperatingCurrentA then false
  else if restraint < s.minRestraintCurrentA then
    decide (operating ≥ s.minOperatingCurrentA)
  else decide (operating ≥ restraint * (s.slopePercent / 100))

/-- Mirror of `DifferentialProtection::update`: operating current
`|I1 - I2|`, restraint current `|(I1 + I2) * 0.5|`, instantaneous branch
first, then the slope characteristic.  Both magnitudes are stored in the
result before any branch. -/
noncomputable def DifferentialProtection.update
    (s : DifferentialProtectionSettings) (enabled : Bool) (I1 I2 : ℂ) :
    DifferentialProtectionResult :=
  if !enabled then ⟨false, 0, 0, false⟩
  else
    let operatingMag := Complex.abs (I1 - I2)
    let restraintMag := Complex.abs ((I1 + I2) * (1 / 2))
    if operatingMag ≥ s.instantaneousThresholdA then
      ⟨true, operatingMag, restraintMag, true⟩
    else if checkCharacteristic s operatingMag restraintMag then
      ⟨true, operatingMag, restraintMag, false⟩
    else ⟨false, operatingMag, restraintMag, false⟩

/-- C6: on an enabled relay, `update I1 I2` reports both current magnitudes,
flags `instantaneous` exactly when `|I1 - I2|` reaches the instantaneous
threshold, and trips exactly when that happens or the slope characteristic
fires: `|I1 - I2| ≥ minOperating` and (restraint below `minRestraint` or
`|I1 - I2| ≥ restraint · slopePercent/100`). -/
theorem diff_update_spec (s : DifferentialProtectionSettings) (I1 I2 : ℂ) :
    (DifferentialProtection.update s true I1 I2).operatingCurrentA
        = Complex.abs (I1 - I2) ∧
    (DifferentialProtection.update s true I1 I2).restraintCurrentA
        = Complex.abs ((I1 + I2) / 2) ∧
    ((DifferentialProtection.update s true I1 I2).instantaneous = true
        ↔ Complex.abs (I1 - I2) ≥ s.instantaneousThresholdA) ∧
    ((DifferentialProtection.update s true I1 I2).trip = true
        ↔ (Complex.abs (I1 - I2) ≥ s.instantaneousThresholdA ∨
           (Complex.abs (I1 - I2) ≥ s.minOperatingCurrentA ∧
            (Complex.abs ((I1 + I2) / 2) < s.minRestraintCurrentA ∨
             Complex.abs (I1 - I2)
               ≥ Complex.abs ((I1 + I2) / 2) * (s.slopePercent / 100))))) := by
  have hdiv : Complex.abs ((I1 + I2) * (1 / 2)) = Complex.abs ((I1 + I2) / 2) := by
    rw [mul_one_div]
  unfold DifferentialProtection.update checkCharacteristic
  simp only [Bool.not_true, Bool.false_eq_true, if_false, hdiv]
  split_ifs with h1 h2 h3 h4 <;> simp_all

end IEC61850

namespace IEC61850

/-! ## Distance protection (src/client.cpp, DistanceProtection)

Zone delays are `std::chrono::microseconds`; the elapsed pickup time is
`duration_cast<milliseconds>(now - start)`, and C++ compares the two
durations in their common type, so the condition is
`⌊elapsed in ms⌋ * 1000 ≥ delay in µs`.  Steady-clock instants are real
numbers in milliseconds here, and `duration_cast` truncation is `Int.floor`
(the elapsed times of the runs are nonnegative).  The per-zone pickup block
is written three times in the source with the zone number substituted; it
is embedded once as `zoneStep` and applied to the three zones. -/

structure DistanceZone where
  reachOhm : ℝ
  angleRad : ℝ
  delayUs : ℤ
  enabled : Bool

structure DistanceProtectionSettings where
  zone1 : DistanceZone
  zone2 : DistanceZone
  zone3 : DistanceZone
  voltageThresholdV : ℝ
  currentThresholdA : ℝ
  directionForward : Bool

structure DistanceProtectionResult where
  zone1Trip : Bool
  zone2Trip : Bool
  zone3Trip : Bool
  measuredImpedanceOhm : ℝ
  measuredAngleRad : ℝ

/-- The mutable relay state: per-zone pickup flags and pickup start times. -/
structure DistanceState where
  zone1Active : Bool
  zone2Active : Bool
  zone3Active : Bool
  zone1Start : ℝ
  zone2Start : ℝ
  zone3Start : ℝ

/-- Mirror of `DistanceProtection::reset`: clear the pickup flags (the
start times are left alone). -/
def DistanceState.reset (st : DistanceState) : DistanceState :=
  { st with zone1Active := false, zone2Active := false, zone3Active := false }

/-- Mathematical `std::fmod` for the arguments that occur here
(nonnegative numerator, positive modulus). -/
noncomputable def fmodReal (x y : ℝ) : ℝ := x - y * ↑(⌊x / y⌋)

/-- Mirror of `DistanceProtection::checkZone`. -/
noncomputable def checkZone (zone : DistanceZone) (impedance angle : ℝ) : Bool :=
  if !zone.enabled || decide (impedance > zone.reachOhm) then false
  else
    decide (fmodReal |angle| (2 * Real.pi) ≤ zone.angleRad
      ∨ fmodReal |angle| (2 * Real.pi) ≥ 2 * Real.pi - zone.angleRad)

/-- Mirror of `DistanceProtection::checkDirecation` (source spelling). -/
noncomputable def checkDirecation (s : DistanceProtectionSettings)
    (impedance : ℂ) : Bool :=
  if s.directionForward then decide (impedance.re > 0)
  else decide (impedance.re < 0)

/-- One per-zone pickup/timer block of `update`: returns
(zone trip, new active flag, new start time). -/
noncomputable def zoneStep (zone : DistanceZone) (active : Bool)
    (start now mag ang : ℝ) : Bool × Bool × ℝ :=
  if zone.enabled && checkZone zone mag ang then
    let start2 := if !active then now else start
    (decide (⌊now - start2⌋ * 1000 ≥ zone.delayUs), true, start2)
  else (false, false, start)

/-- Mirror of `DistanceProtection::update`. -/
noncomputable def DistanceProtection.update (s : DistanceProtectionSettings)
    (enabled : Bool) (st : DistanceState) (now : ℝ) (V I : ℂ) :
    DistanceProtectionResult × DistanceState :=
  if !enabled then (⟨false, false, false, 0, 0⟩, st)
  else if Complex.abs V < s.voltageThresholdV
      ∨ Complex.abs I < s.currentThresholdA then
    (⟨false, false, false, 0, 0⟩, st.reset)
  else
    if !(checkDirecation s (V / I)) then
      (⟨false, false, false, Complex.abs (V / I), (V / I).arg⟩, st.reset)
    else
      let z1 := zoneStep s.zone1 st.zone1Active st.zone1Start now
        (Complex.abs (V / I)) ((V / I).arg)
      let z2 := zoneStep s.zone2 st.zone2Active st.zone2Start now
        (Complex.abs (V / I)) ((V / I).arg)
      let z3 := zoneStep s.zone3 st.zone3Active st.zone3Start now
        (Complex.abs (V / I)) ((V / I).arg)
      (⟨z1.1, z2.1, z3.1, Complex.abs (V / I), (V / I).arg⟩,
       ⟨z1.2.1, z2.2.1, z3.2.1, z1.2.2, z2.2.2, z3.2.2⟩)

theorem fmodReal_eq_self {x y : ℝ} (hx : 0 ≤ x) (hxy : x < y) :
    fmodReal x y = x := by
  have hy : 0 < y := lt_of_le_of_lt hx hxy
  have h0 : ⌊x / y⌋ = 0 := by
    rw [Int.floor_eq_zero_iff]
    exact ⟨div_nonneg hx hy.le, (div_lt_one hy).mpr hxy⟩
  simp [fmodReal, h0]

/-- C7: under the load-blocking check (`|V|` or `|I|` below its threshold)
`update` returns the empty result and clears the pickup flags, whatever the
impedance; and on a first call (zone-1 pickup inactive) with both
thresholds passed, forward direction matched, `V/I` inside the enabled
zone 1 and zone-1 delay 0, the returned result already has
`zone1Trip = true`. -/
theorem distance_update_spec
    (s s2 : DistanceProtectionSettings) (st st2 : DistanceState)
    (now now2 : ℝ) (V I V2 I2 : ℂ)
    (hblock : Complex.abs V < s.voltageThresholdV
      ∨ Complex.abs I < s.currentThresholdA)
    (hfresh : st2.zone1Active = false)
    (hz1en : s2.zone1.enabled = true)
    (hdelay : s2.zone1.delayUs = 0)
    (hV2 : Complex.abs V2 ≥ s2.voltageThresholdV)
    (hI2 : Complex.abs I2 ≥ s2.currentThresholdA)
    (hdir : s2.directionForward = true)
    (hre : (V2 / I2).re > 0)
    (hreach : Complex.abs (V2 / I2) ≤ s2.zone1.reachOhm)
    (hang : |(V2 / I2).arg| ≤ s2.zone1.angleRad) :
    DistanceProtection.update s true st now V I
      = (⟨false, false, false, 0, 0⟩, st.reset) ∧
    (DistanceProtection.update s2 true st2 now2 V2 I2).1.zone1Trip = true := by
  constructor
  · unfold DistanceProtection.update
    simp [hblock]
  · have hpi : |(V2 / I2).arg| < 2 * Real.pi := by
      have h1 := Complex.abs_arg_le_pi (V2 / I2)
      have h2 := Real.pi_pos
      linarith
    have hz : checkZone s2.zone1 (Complex.abs (V2 / I2)) ((V2 / I2).arg)
        = true := by
      unfold checkZone
      rw [if_neg (by
        simp only [hz1en, Bool.not_true, Bool.false_or, decide_eq_true_eq]
        exact not_lt.mpr hreach)]
      rw [fmodReal_eq_self (abs_nonneg _) hpi]
      simp
      left
      exact hang
    have hd : checkDirecation s2 (V2 / I2) = true := by
      unfold checkDirecation
      simp [hdir, hre]
    unfold DistanceProtection.update
    rw [if_neg (by simp)]
    rw [if_neg (by push_neg; exact ⟨by linarith, by linarith⟩)]
    rw [if_neg (by simp [hd])]
    unfold zoneStep
    simp only [hz1en, hz, Bool.and_self, if_true, hfresh, Bool.not_false,
      if_pos]
    simp [hdelay]
end IEC61850

namespace IEC61850

/-- Distance-protection settings fixture: zone 1 reach 10 Ω, half-angle 1
rad, no delay; thresholds 20 V and 0.5 A; forward-looking. -/
noncomputable def wDistS : DistanceProtectionSettings :=
  ⟨⟨10, 1, 0, true⟩, ⟨20, 1, 300000, true⟩, ⟨30, 1, 600000, true⟩,
   20, 1 / 2, true⟩

def wDistSt : DistanceState := ⟨false, false, false, 0, 0, 0⟩

/-- Witness for C7: V = 1 V blocks; V = 100 V, I = 20 A (Z = 5 Ω at 0 rad)
trips zone 1 on the first call. -/
theorem distance_update_spec_witness :
    DistanceProtection.update wDistS true wDistSt 0 ((1 : ℝ) : ℂ) ((1 : ℝ) : ℂ)
      = (⟨false, false, false, 0, 0⟩, wDistSt.reset) ∧
    (DistanceProtection.update wDistS true wDistSt 0
        ((100 : ℝ) : ℂ) ((20 : ℝ) : ℂ)).1.zone1Trip = true := by
  have hdiv : ((100 : ℝ) : ℂ) / ((20 : ℝ) : ℂ) = ((5 : ℝ) : ℂ) := by
    rw [← Complex.ofReal_div]
    norm_num
  refine distance_update_spec wDistS wDistS wDistSt wDistSt 0 0
    ((1 : ℝ) : ℂ) ((1 : ℝ) : ℂ) ((100 : ℝ) : ℂ) ((20 : ℝ) : ℂ)
    (Or.inl (by rw [Complex.abs_ofReal]; norm_num [wDistS])) rfl rfl rfl
    (by rw [Complex.abs_ofReal]; norm_num [wDistS])
    (by rw [Complex.abs_ofReal]; norm_num [wDistS])
    rfl
    (by rw [hdiv, Complex.ofReal_re]; norm_num)
    (by rw [hdiv, Complex.abs_ofReal]; norm_num [wDistS])
    (by rw [hdiv, Complex.arg_ofReal_of_nonneg (by norm_num)]; norm_num [wDistS])

/-! ## SVCB userPriority setter (C8)

`SampledValueControlBlock::setUserPriority` stores the new priority only
when it lies in 1..7; every other value, 0 included, leaves the stored
`userPriority_` untouched. -/

/-- Mirror of `setUserPriority`: `stored` is the current `userPriority_`
field, the result the field after the call. -/
def setUserPriority (stored priority : Nat) : Nat :=
  if 1 ≤ priority ∧ priority ≤ 7 then priority else stored

/-- C8 counterexample: with 5 stored, setting priority 0 leaves 5 stored,
so 0 is not accepted even though it lies in the claimed 0..7 range. -/
theorem setUserPriority_cex : setUserPriority 5 0 = 5 ∧ (5 : Nat) ≠ 0 := by
  decide

/-- C8 (amended): over the `uint8_t` domain, `setUserPriority` stores
exactly the values 1..7 and silently keeps the old value for 0 and for
every value greater than 7. -/
theorem setUserPriority_spec (stored priority : Nat) (hp : priority < 256) :
    (1 ≤ priority ∧ priority ≤ 7 → setUserPriority stored priority = priority) ∧
    (priority = 0 ∨ 7 < priority → setUserPriority stored priority = stored) := by
  constructor
  · intro h
    simp [setUserPriority, h]
  · intro h
    have : ¬(1 ≤ priority ∧ priority ≤ 7) := by omega
    simp [setUserPriority, this]

/-- Witness for C8 at stored 3: priority 5 is taken, priority 0 and 200 are
ignored. -/
theorem setUserPriority_spec_witness :
    ((1 ≤ 5 ∧ 5 ≤ 7 → setUserPriority 3 5 = 5) ∧
      (5 = 0 ∨ 7 < 5 → setUserPriority 3 5 = 3)) ∧
    ((1 ≤ 0 ∧ 0 ≤ 7 → setUserPriority 3 0 = 0) ∧
      ((0 : Nat) = 0 ∨ 7 < 0 → setUserPriority 3 0 = 3)) :=
  ⟨setUserPriority_spec 3 5 (by decide), setUserPriority_spec 3 0 (by decide)⟩

/-! ## IedServer::updateSampledValue (C9)

The publisher keeps one shared `static std::atomic<uint16_t>` sample
counter.  `updateSampledValue` stamps `smpCnt = counter.fetch_add(1)`
before checking `values.size() == 8`, so a rejected call still consumes a
counter value.  Here `cnt` is the counter before the call; the result is
(counter after the call, ASDU handed to the sender, if any). -/

/-- Mirror of `IedServer::updateSampledValue`. -/
def updateSampledValue (svcbName : List Nat) (cnt : Nat)
    (values : List AnalogValue) (nowNs : Nat) : Nat × Option ASDU :=
  if values.length ≠ 8 then ((cnt + 1) % 2 ^ 16, none)
  else
    if (ASDU.mk svcbName cnt 1 .Local values none nowNs).isValid then
      ((cnt + 1) % 2 ^ 16, some (ASDU.mk svcbName cnt 1 .Local values none nowNs))
    else ((cnt + 1) % 2 ^ 16, none)

/-- C9: a call with a wrong-sized values vector sends nothing yet still
consumes one smpCnt value, so the next successful update does not carry the
successor of the previous smpCnt: the subscriber sees a gap with no frame
lost on the wire. -/
theorem updateSampledValue_gap (name : List Nat) (cnt : Nat)
    (good bad : List AnalogValue) (n1 n2 n3 : Nat)
    (hname : 2 ≤ name.length) (hgood : good.length = 8)
    (hbad : bad.length ≠ 8) (hcnt : cnt < 2 ^ 16 - 2) :
    (updateSampledValue name ((updateSampledValue name cnt good n1).1)
        bad n2).2 = none ∧
    (updateSampledValue name ((updateSampledValue name cnt good n1).1)
        bad n2).1 = cnt + 2 ∧
    (updateSampledValue name cnt good n1).2
      = some (ASDU.mk name cnt 1 .Local good none n1) ∧
    (updateSampledValue name (cnt + 2) good n3).2
      = some (ASDU.mk name (cnt + 2) 1 .Local good none n3) ∧
    cnt + 2 ≠ (cnt + 1) % 2 ^ 16 := by
  have hempty : ¬name.isEmpty := by
    cases name with
    | nil => simp at hname
    | cons a t => simp
  have hvalid : ∀ c m, (ASDU.mk name c 1 .Local good none m).isValid = true := by
    intro c m
    simp [ASDU.isValid, hempty, hname, hgood]
  have h1 : (updateSampledValue name cnt good n1).1 = cnt + 1 := by
    simp [updateSampledValue, hgood, hvalid]
    omega
  refine ⟨?_, ?_, ?_, ?_, by omega⟩
  · rw [h1]; simp [updateSampledValue, hbad]
  · rw [h1]; simp [updateSampledValue, hbad]; omega
  · simp [updateSampledValue, hgood, hvalid]
  · simp [updateSampledValue, hgood, hvalid]

/-- Witness for C9: counter 5, an 8-sample update, a 1-sample reject, and
the following 8-sample update. -/
theorem updateSampledValue_gap_witness :
    (updateSampledValue [83, 86] ((updateSampledValue [83, 86] 5 cexZeros 10).1)
        [⟨.i32 0, 0⟩] 11).2 = none ∧
    (updateSampledValue [83, 86] ((updateSampledValue [83, 86] 5 cexZeros 10).1)
        [⟨.i32 0, 0⟩] 11).1 = 7 ∧
    (updateSampledValue [83, 86] 5 cexZeros 10).2
      = some (ASDU.mk [83, 86] 5 1 .Local cexZeros none 10) ∧
    (updateSampledValue [83, 86] 7 cexZeros 12).2
      = some (ASDU.mk [83, 86] 7 1 .Local cexZeros none 12) ∧
    (7 : Nat) ≠ (5 + 1) % 2 ^ 16 :=
  updateSampledValue_gap [83, 86] 5 cexZeros [⟨.i32 0, 0⟩] 10 11 12
    (by decide) (by decide) (by decide) (by norm_num)

end IEC61850

namespace IEC61850

/-- Witness for C3 at s = 5, ns = 999999999. -/
theorem ptp_roundtrip_witness :
    (999999999 : Nat) < 1000000000 ∧
    ∃ ns2 : Nat,
      PtpTimestamp.fromTai (PtpTimestamp.toTai 5 999999999)
        = some (5 % 2 ^ 32, ns2) ∧
      ns2 ≤ 999999999 ∧ 999999999 ≤ ns2 + 1 ∧
      999999999 * 2 ^ 32 < 2 ^ 64 ∧
      999999999 * 2 ^ 32 / 1000000000 * 1000000000 < 2 ^ 64 :=
  ⟨by norm_num, ptp_roundtrip 5 999999999 (by norm_num)⟩

end IEC61850
